import Mathlib

/-!
Verification development for the FurDLP printer driver.

The Python sources are shallowly embedded in Lean:
* Python `str` values are modelled as `List Char` (the programs at hand only
  manipulate ASCII text, so the ASCII fragment of `str.strip`, `str.lower`,
  `\s` and friends is embedded);
* numeric literals parsed by `float(...)` from the `[0-9.]+` tokens captured
  by the executor's regular expressions are modelled as exact rationals;
* side effects on the motion controller, the projector and the display are
  modelled as explicit traces of actions;
* time inside `wait_until_idle` is modelled by the idealized clock in which
  each status query is instantaneous and each sleep lasts exactly the poll
  interval, so the elapsed time before poll `n` is `n * poll_s`.
-/

/-! ## Python string primitives (ASCII fragment) -/

/-- ASCII whitespace recognised by Python `str.strip` and by `\s` in the
executor's regular expressions (restricted to the ASCII fragment). -/
def isPySpace (c : Char) : Bool :=
  c = ' ' || c = '\t' || c = '\n' || c = '\r' || c = '\x0b' || c = '\x0c'

/-- ASCII lowercasing of one character, the fragment of `str.lower` exercised
by the sources. -/
def lowerChar (c : Char) : Char :=
  if 'A' ≤ c ∧ c ≤ 'Z' then Char.ofNat (c.toNat + 32) else c

/-- Python `str.lower` on ASCII text. -/
def pyLower (s : List Char) : List Char := s.map lowerChar

/-- Python `str.strip()` (ASCII whitespace). -/
def pyStrip (s : List Char) : List Char :=
  ((s.dropWhile isPySpace).reverse.dropWhile isPySpace).reverse

/-! ## GrblClient.get_status (src/grbl_client.py, lines 107-118) -/

/-- Result of one `?` status query, mirroring the `GrblStatus` dataclass:
the raw report line and the parsed state (`none` models Python `None`,
i.e. the Unknown state). -/
structure GrblStatus where
  raw : List Char
  state : Option (List Char)
deriving DecidableEq, Repr

/-- Does the line start with the character `<`? (Python
`line.startswith("<")`.) -/
def startsWithLt : List Char → Bool
  | '<' :: _ => true
  | _ => false

/-- The state-extraction logic of `GrblClient.get_status`: if the raw line
starts with `<` and contains `|`, the state is `line[1:].split("|", 1)[0]`,
otherwise `None`. -/
def statusStateOf (line : List Char) : Option (List Char) :=
  if startsWithLt line = true ∧ '|' ∈ line then
    some ((line.drop 1).takeWhile (fun c => c ≠ '|'))
  else
    none

/-- `GrblClient.get_status`, given the one response line delivered from the
device: build the `GrblStatus` record. -/
def get_status (line : List Char) : GrblStatus :=
  { raw := line, state := statusStateOf line }

/-! Helper lemmas about `takeWhile` on a decomposed line. -/

theorem takeWhile_append_stop {p : Char → Bool} :
    ∀ (s : List Char) (x : Char) (r : List Char),
      (∀ c ∈ s, p c = true) → p x = false →
      (s ++ x :: r).takeWhile p = s := by
  intro s x r hs hx
  induction s with
  | nil => simp [List.takeWhile, hx]
  | cons a t ih =>
      have ha : p a = true := hs a (by simp)
      simp only [List.cons_append, List.takeWhile, ha, List.append_eq]
      rw [ih (fun c hc => hs c (by simp [hc]))]

/-- CLAIM C8: `queryStatus` parsing is total and never raises on a delivered
line: for a report of the shape `<STATE|...` the parsed state is exactly the
token between the leading `<` and the first `|`; any line lacking that shape
parses to the Unknown state (`none`); and the concrete report
`"<Idle|MPos:0.000,0.000,0.000|FS:0,0>"` parses to state `Idle`. -/
theorem C8_status_parse :
    (∀ (s rest : List Char), '|' ∉ s →
        statusStateOf ('<' :: s ++ '|' :: rest) = some s)
    ∧ (∀ line : List Char, ¬ (startsWithLt line = true ∧ '|' ∈ line) →
        statusStateOf line = none)
    ∧ get_status "<Idle|MPos:0.000,0.000,0.000|FS:0,0>".data =
        { raw := "<Idle|MPos:0.000,0.000,0.000|FS:0,0>".data,
          state := some "Idle".data } := by
  refine ⟨?_, ?_, by decide⟩
  · intro s rest hs
    have hshape : startsWithLt ('<' :: s ++ '|' :: rest) = true ∧
        '|' ∈ ('<' :: s ++ '|' :: rest) := by
      constructor
      · rfl
      · simp
    rw [statusStateOf, if_pos hshape]
    have : (('<' :: s ++ '|' :: rest).drop 1) = s ++ '|' :: rest := by simp
    rw [this, takeWhile_append_stop s '|' rest
      (fun c hc => by
        simp only [decide_eq_true_eq]
        intro h
        exact hs (h ▸ hc))
      (by simp)]
  · intro line hline
    rw [statusStateOf, if_neg hline]

/-- Witness for C8 at a concrete decomposed report. -/
theorem C8_status_parse_witness :
    statusStateOf ('<' :: "Run".data ++ '|' :: "WPos:1,2,3>".data) =
      some "Run".data :=
  C8_status_parse.1 "Run".data "WPos:1,2,3>".data (by decide)

/-! ## GrblClient.wait_until_idle (src/grbl_client.py, lines 120-131)

The loop is embedded over a stream `polls : ℕ → List Char` giving the raw
line delivered by the device in answer to the `n`-th `?` query, and the
idealized clock in which the elapsed time checked at iteration `n` is
`n * poll_s` (each query instantaneous, each sleep exactly `poll_s`).
Recursion is fuel-bounded; the fuel chosen for the entry point is large
enough that, for a positive poll interval and a nonnegative timeout, the
fuel can never run out before the timeout check fires. -/

/-- Errors raised by the embedded `GrblClient` methods. -/
inductive GrblErr
  | controllerAlarm (raw : List Char)
  | awaitIdleTimeout (raw : List Char)
  | controllerRejected (resp : List Char) (cmd : List Char)
  | readTimeout
  | fuelExhausted
deriving DecidableEq, Repr

/-- Observable actions of `wait_until_idle`: a status poll or a sleep. -/
inductive WaitAct
  | pollStatus (st : GrblStatus)
  | sleepSecs (s : ℚ)
deriving DecidableEq, Repr

/-- Is the action a sleep? -/
def isSleepAct : WaitAct → Bool
  | .sleepSecs _ => true
  | _ => false

/-- Is the action a status poll? -/
def isPollAct : WaitAct → Bool
  | .pollStatus _ => true
  | _ => false

/-- One iteration structure of `GrblClient.wait_until_idle`: poll, return on
Idle, raise on Alarm, raise on deadline exceeded, otherwise sleep and loop. -/
def wait_until_idle_go (polls : ℕ → List Char) (timeout_s poll_s : ℚ) :
    ℕ → ℕ → Except GrblErr Unit × List WaitAct
  | 0, _ => (.error .fuelExhausted, [])
  | fuel + 1, n =>
    let st := get_status (polls n)
    if st.state = some "Idle".data then (.ok (), [.pollStatus st])
    else if st.state = some "Alarm".data then
      (.error (.controllerAlarm st.raw), [.pollStatus st])
    else if timeout_s < (n : ℚ) * poll_s then
      (.error (.awaitIdleTimeout st.raw), [.pollStatus st])
    else
      let r := wait_until_idle_go polls timeout_s poll_s fuel (n + 1)
      (r.1, .pollStatus st :: .sleepSecs poll_s :: r.2)

/-- Index of the first poll at which the deadline check fires under the
idealized clock: the least `n` with `timeout_s < n * poll_s`. -/
def idlePollLimit (timeout_s poll_s : ℚ) : ℕ :=
  (⌊timeout_s / poll_s⌋ + 1).toNat

/-- Fuel given to the loop; strictly more than `idlePollLimit` iterations. -/
def idleWaitFuel (timeout_s poll_s : ℚ) : ℕ :=
  (⌈timeout_s / poll_s⌉).toNat + 2

/-- `GrblClient.wait_until_idle`, returning the outcome and the trace of
poll/sleep actions performed. -/
def wait_until_idle (polls : ℕ → List Char) (timeout_s poll_s : ℚ) :
    Except GrblErr Unit × List WaitAct :=
  wait_until_idle_go polls timeout_s poll_s (idleWaitFuel timeout_s poll_s) 0

/-- A raw status line that parses to neither Idle nor Alarm (Run/Hold/…,
or the Unknown state). -/
def grblNonTerminal (line : List Char) : Prop :=
  statusStateOf line ≠ some "Idle".data ∧ statusStateOf line ≠ some "Alarm".data

instance (line : List Char) : Decidable (grblNonTerminal line) := by
  unfold grblNonTerminal; infer_instance

theorem idle_timeout_iff (timeout_s poll_s : ℚ) (hp : 0 < poll_s)
    (ht : 0 ≤ timeout_s) (n : ℕ) :
    timeout_s < (n : ℚ) * poll_s ↔ idlePollLimit timeout_s poll_s ≤ n := by
  have h1 : timeout_s < (n : ℚ) * poll_s ↔ timeout_s / poll_s < (n : ℚ) :=
    (div_lt_iff₀ hp).symm
  have h2 : timeout_s / poll_s < (n : ℚ) ↔ ⌊timeout_s / poll_s⌋ < (n : ℤ) := by
    rw [Int.floor_lt]
    norm_cast
  have hF : 0 ≤ ⌊timeout_s / poll_s⌋ :=
    Int.floor_nonneg.mpr (div_nonneg ht hp.le)
  rw [h1, h2, idlePollLimit]
  omega

theorem wait_go_idle (polls : ℕ → List Char) (T p : ℚ) :
    ∀ fuel n m, n ≤ m → m - n < fuel →
      (∀ j, n ≤ j → j < m → grblNonTerminal (polls j) ∧ ¬ T < (j : ℚ) * p) →
      statusStateOf (polls m) = some "Idle".data →
      (wait_until_idle_go polls T p fuel n).1 = .ok () := by
  intro fuel
  induction fuel with
  | zero => intro n m h1 h2 _ _; omega
  | succ f ih =>
    intro n m hnm hfuel hpre hidle
    by_cases hn : n = m
    · subst hn
      simp [wait_until_idle_go, get_status, hidle]
    · have hlt : n < m := lt_of_le_of_ne hnm hn
      obtain ⟨hnt, hle⟩ := hpre n le_rfl hlt
      simp only [wait_until_idle_go, get_status]
      rw [if_neg hnt.1, if_neg hnt.2, if_neg hle]
      exact ih (n + 1) m hlt (by omega)
        (fun j hj1 hj2 => hpre j (by omega) hj2) hidle

theorem wait_go_alarm (polls : ℕ → List Char) (T p : ℚ) :
    ∀ fuel n m, n ≤ m → m - n < fuel →
      (∀ j, n ≤ j → j < m → grblNonTerminal (polls j) ∧ ¬ T < (j : ℚ) * p) →
      statusStateOf (polls m) = some "Alarm".data →
      (wait_until_idle_go polls T p fuel n).1 =
        .error (.controllerAlarm (polls m)) := by
  intro fuel
  induction fuel with
  | zero => intro n m h1 h2 _ _; omega
  | succ f ih =>
    intro n m hnm hfuel hpre halarm
    by_cases hn : n = m
    · subst hn
      have hnidle : ¬ statusStateOf (polls n) = some "Idle".data := by
        rw [halarm]
        decide
      simp only [wait_until_idle_go, get_status]
      rw [if_neg hnidle, if_pos halarm]
    · have hlt : n < m := lt_of_le_of_ne hnm hn
      obtain ⟨hnt, hle⟩ := hpre n le_rfl hlt
      simp only [wait_until_idle_go, get_status]
      rw [if_neg hnt.1, if_neg hnt.2, if_neg hle]
      exact ih (n + 1) m hlt (by omega)
        (fun j hj1 hj2 => hpre j (by omega) hj2) halarm

theorem wait_go_timeout (polls : ℕ → List Char) (T p : ℚ)
    (hp : 0 < p) (ht : 0 ≤ T) :
    ∀ fuel n, (∀ j, grblNonTerminal (polls j)) →
      n ≤ idlePollLimit T p → idlePollLimit T p < n + fuel →
      (wait_until_idle_go polls T p fuel n).1 =
        .error (.awaitIdleTimeout (polls (idlePollLimit T p))) := by
  intro fuel
  induction fuel with
  | zero => intro n _ h1 h2; omega
  | succ f ih =>
    intro n hnt hn1 hn2
    simp only [wait_until_idle_go, get_status]
    rw [if_neg (hnt n).1, if_neg (hnt n).2]
    by_cases hdl : T < (n : ℚ) * p
    · have hNn : idlePollLimit T p ≤ n := (idle_timeout_iff T p hp ht n).mp hdl
      have : n = idlePollLimit T p := le_antisymm hNn hn1 |>.symm
      rw [if_pos hdl, this]
    · have hnN : n < idlePollLimit T p := by
        have := (idle_timeout_iff T p hp ht n).not.mp hdl
        omega
      rw [if_neg hdl]
      exact ih (n + 1) hnt (by omega) (by omega)

theorem wait_go_sleep_count (polls : ℕ → List Char) (T p : ℚ)
    (hp : 0 < p) (ht : 0 ≤ T) :
    ∀ fuel n, n ≤ idlePollLimit T p → idlePollLimit T p < n + fuel →
      ((wait_until_idle_go polls T p fuel n).2.countP isSleepAct) + 1 =
        (wait_until_idle_go polls T p fuel n).2.countP isPollAct := by
  intro fuel
  induction fuel with
  | zero => intro n h1 h2; omega
  | succ f ih =>
    intro n hn1 hn2
    simp only [wait_until_idle_go, get_status]
    by_cases h1 : statusStateOf (polls n) = some "Idle".data
    · rw [if_pos h1]; simp [List.countP_cons, isSleepAct, isPollAct]
    by_cases h2 : statusStateOf (polls n) = some "Alarm".data
    · rw [if_neg h1, if_pos h2]; simp [List.countP_cons, isSleepAct, isPollAct]
    by_cases hdl : T < (n : ℚ) * p
    · rw [if_neg h1, if_neg h2, if_pos hdl]
      simp [List.countP_cons, isSleepAct, isPollAct]
    · have hnN : n < idlePollLimit T p := by
        have := (idle_timeout_iff T p hp ht n).not.mp hdl
        omega
      rw [if_neg h1, if_neg h2, if_neg hdl]
      have := ih (n + 1) (by omega) (by omega)
      simp only [List.countP_cons, isSleepAct, isPollAct]
      omega

theorem wait_fuel_big (T p : ℚ) (hp : 0 < p) (ht : 0 ≤ T) :
    idlePollLimit T p < idleWaitFuel T p := by
  have hF : 0 ≤ ⌊T / p⌋ := Int.floor_nonneg.mpr (div_nonneg ht hp.le)
  have hFC : ⌊T / p⌋ ≤ ⌈T / p⌉ := Int.floor_le_ceil _
  rw [idlePollLimit, idleWaitFuel]
  omega

/-- CLAIM C4: `wait_until_idle` returns normally as soon as a status poll
reports Idle (immediately if the first one does), raises the controller-alarm
error the first time a poll reports Alarm even if the timeout has not yet
elapsed, raises the idle-wait timeout error when the timeout elapses while
every poll reports a non-Idle non-Alarm state, and sleeps the poll interval
between successive polls (one sleep action between consecutive poll
actions). -/
theorem C4_wait_until_idle (polls : ℕ → List Char) (T p : ℚ)
    (hp : 0 < p) (ht : 0 ≤ T) :
    (∀ m, (∀ j, j < m → grblNonTerminal (polls j) ∧ (j : ℚ) * p ≤ T) →
        statusStateOf (polls m) = some "Idle".data →
        (wait_until_idle polls T p).1 = .ok ())
    ∧ (∀ m, (∀ j, j < m → grblNonTerminal (polls j) ∧ (j : ℚ) * p ≤ T) →
        statusStateOf (polls m) = some "Alarm".data →
        (wait_until_idle polls T p).1 = .error (.controllerAlarm (polls m)))
    ∧ ((∀ j, grblNonTerminal (polls j)) →
        (wait_until_idle polls T p).1 =
          .error (.awaitIdleTimeout (polls (idlePollLimit T p))))
    ∧ ((wait_until_idle polls T p).2.countP isSleepAct + 1 =
        (wait_until_idle polls T p).2.countP isPollAct) := by
  have hfuel := wait_fuel_big T p hp ht
  have hreach : ∀ m, (∀ j, j < m → grblNonTerminal (polls j) ∧ (j : ℚ) * p ≤ T) →
      m - 0 < idleWaitFuel T p := by
    intro m hm
    rcases Nat.eq_zero_or_pos m with hm0 | hm0
    · omega
    · have hlast := hm (m - 1) (by omega)
      have : ¬ T < ((m - 1 : ℕ) : ℚ) * p := not_lt.mpr hlast.2
      have := (idle_timeout_iff T p hp ht (m - 1)).not.mp this
      omega
  refine ⟨?_, ?_, ?_, ?_⟩
  · intro m hm hidle
    exact wait_go_idle polls T p (idleWaitFuel T p) 0 m (Nat.zero_le m)
      (hreach m hm)
      (fun j _ hj2 => ⟨(hm j hj2).1, not_lt.mpr (hm j hj2).2⟩) hidle
  · intro m hm halarm
    exact wait_go_alarm polls T p (idleWaitFuel T p) 0 m (Nat.zero_le m)
      (hreach m hm)
      (fun j _ hj2 => ⟨(hm j hj2).1, not_lt.mpr (hm j hj2).2⟩) halarm
  · intro hnt
    exact wait_go_timeout polls T p hp ht (idleWaitFuel T p) 0 hnt
      (Nat.zero_le _) (by omega)
  · exact wait_go_sleep_count polls T p hp ht (idleWaitFuel T p) 0
      (Nat.zero_le _) (by omega)

/-- Witness for C4: with every poll answering `<Run|X>`, a quarter-second
timeout and a tenth-second poll interval, the wait raises the idle-wait
timeout error carrying the last raw report. -/
theorem C4_wait_until_idle_witness :
    (wait_until_idle (fun _ => "<Run|X>".data) (1/4) (1/10)).1 =
      .error (.awaitIdleTimeout "<Run|X>".data) :=
  (C4_wait_until_idle (fun _ => "<Run|X>".data) (1/4) (1/10)
    (by norm_num) (by norm_num)).2.2.1 (fun _ => by decide)

/-! ## GrblClient.send_line_wait_ok (src/grbl_client.py, lines 73-91)

The serial channel is embedded as the list of response lines the device
delivers (in order); running out of that list models `_readline` hitting its
read deadline. The outcome records the returned value (or raised error), the
payloads written to the channel, and how many response lines were consumed. -/

instance exceptDecidableEq {e a : Type} [DecidableEq e] [DecidableEq a] :
    DecidableEq (Except e a) := fun x y =>
  match x, y with
  | .error u, .error v =>
      decidable_of_iff (u = v) ⟨fun h => by rw [h], fun h => by injection h⟩
  | .ok u, .ok v =>
      decidable_of_iff (u = v) ⟨fun h => by rw [h], fun h => by injection h⟩
  | .error _, .ok _ => isFalse fun h => by injection h
  | .ok _, .error _ => isFalse fun h => by injection h

/-- Observable outcome of one `send_line_wait_ok` call. -/
structure SendOutcome where
  result : Except GrblErr (List Char)
  written : List (List Char)
  consumed : ℕ
deriving DecidableEq, Repr

/-- Is the response the acknowledgement token? (`resp.lower() == "ok"`.) -/
def respIsOk (resp : List Char) : Bool :=
  pyLower resp = "ok".data

/-- Does the lowercased response begin with an error or alarm token?
(`low.startswith("error") or low.startswith("alarm")`.) -/
def respIsErrTok (resp : List Char) : Bool :=
  "error".data.isPrefixOf (pyLower resp) || "alarm".data.isPrefixOf (pyLower resp)

/-- The read loop of `send_line_wait_ok`: read one line at a time until an
acknowledgement or an error/alarm response; every other line is discarded.
Returns the result and the number of lines consumed. -/
def readUntilOk (clean : List Char) : List (List Char) → Except GrblErr (List Char) × ℕ
  | [] => (.error .readTimeout, 0)
  | resp :: rest =>
    if respIsOk resp then (.ok resp, 1)
    else if respIsErrTok resp then (.error (.controllerRejected resp clean), 1)
    else
      let r := readUntilOk clean rest
      (r.1, r.2 + 1)

/-- `GrblClient.send_line_wait_ok`: strip the line; an empty result returns
the empty string without touching the channel; otherwise write the stripped
line with the `\n` terminator appended and run the read loop. -/
def send_line_wait_ok (line : List Char) (resps : List (List Char)) : SendOutcome :=
  let clean := pyStrip line
  if clean = [] then
    { result := .ok [], written := [], consumed := 0 }
  else
    let r := readUntilOk clean resps
    { result := r.1, written := [clean ++ ['\n']], consumed := r.2 }

theorem readUntilOk_skip (clean : List Char) :
    ∀ (pre : List (List Char)) (t : List Char) (rest : List (List Char)),
      (∀ r ∈ pre, respIsOk r = false ∧ respIsErrTok r = false) →
      readUntilOk clean (pre ++ t :: rest) =
        ((readUntilOk clean (t :: rest)).1,
          (readUntilOk clean (t :: rest)).2 + pre.length) := by
  intro pre
  induction pre with
  | nil => intro t rest _; simp
  | cons a l ih =>
    intro t rest hpre
    have ha := hpre a (by simp)
    have hstep : readUntilOk clean ((a :: l) ++ t :: rest)
        = ((readUntilOk clean (l ++ t :: rest)).1,
            (readUntilOk clean (l ++ t :: rest)).2 + 1) := by
      simp only [List.cons_append, readUntilOk, List.append_eq]
      rw [if_neg (by simp [ha.1]), if_neg (by simp [ha.2])]
    rw [hstep, ih t rest (fun r hr => hpre r (by simp [hr]))]
    simp
    omega

/-- CLAIM C5: `send_line_wait_ok` reads response lines one at a time until a
terminal line, discarding every non-terminal line: if the device answers with
any number of informational lines followed by a terminal line, then (a) when
the terminal line equals the "ok" token (case-insensitively) the call
succeeds with that line, having written exactly the stripped command plus the
newline terminator and consumed exactly the informational lines plus one; and
(b) when the terminal line begins with an error or alarm token the call
raises the controller-rejected error immediately, consuming the same number
of lines and writing nothing further. -/
theorem C5_send_line_wait_ok (line : List Char) (resps : List (List Char))
    (pre : List (List Char)) (t : List Char) (rest : List (List Char))
    (hne : pyStrip line ≠ [])
    (hsplit : resps = pre ++ t :: rest)
    (hpre : ∀ r ∈ pre, respIsOk r = false ∧ respIsErrTok r = false) :
    (respIsOk t = true →
      send_line_wait_ok line resps =
        { result := .ok t, written := [pyStrip line ++ ['\n']],
          consumed := pre.length + 1 })
    ∧ (respIsErrTok t = true →
      send_line_wait_ok line resps =
        { result := .error (.controllerRejected t (pyStrip line)),
          written := [pyStrip line ++ ['\n']],
          consumed := pre.length + 1 }) := by
  subst hsplit
  rw [send_line_wait_ok]
  rw [if_neg hne]
  rw [readUntilOk_skip (pyStrip line) pre t rest hpre]
  constructor
  · intro hok
    rw [readUntilOk, if_pos hok]
    simp [Nat.add_comm]
  · intro herr
    have hnok : ¬ respIsOk t = true := by
      intro h
      have h' : decide (pyLower t = "ok".data) = true := h
      have hlow : pyLower t = "ok".data := of_decide_eq_true h'
      rw [respIsErrTok, hlow] at herr
      exact (by decide :
          ¬ ("error".data.isPrefixOf "ok".data ||
             "alarm".data.isPrefixOf "ok".data) = true) herr
    rw [readUntilOk, if_neg hnok, if_pos herr]
    simp [Nat.add_comm]

/-- Witness for C5: the `G21` command answered by two informational lines and
then `ok` returns `ok` having consumed exactly three lines. -/
theorem C5_send_line_wait_ok_witness :
    send_line_wait_ok "G21".data
        ["[MSG:caution]".data, "Grbl 1.1h".data, "ok".data] =
      { result := .ok "ok".data, written := ["G21\n".data], consumed := 3 } :=
  (C5_send_line_wait_ok "G21".data
      ["[MSG:caution]".data, "Grbl 1.1h".data, "ok".data]
      ["[MSG:caution]".data, "Grbl 1.1h".data] "ok".data []
      (by decide) (by decide) (by decide)).1 (by decide)

/-- CLAIM C10: calling `send_line_wait_ok` with an empty or whitespace-only
line is a no-op at the public interface: it returns the empty string, writes
no bytes to the serial channel, reads no response line, and raises no
error, whatever the device would have answered. -/
theorem C10_blank_line_noop (line : List Char)
    (hblank : ∀ c ∈ line, isPySpace c = true) :
    ∀ resps : List (List Char),
      send_line_wait_ok line resps =
        { result := .ok [], written := [], consumed := 0 } := by
  intro resps
  have hstrip : pyStrip line = [] := by
    rw [pyStrip]
    have h1 : line.dropWhile isPySpace = [] :=
      List.dropWhile_eq_nil_iff.mpr hblank
    rw [h1]
    simp
  rw [send_line_wait_ok, if_pos hstrip]

/-- Witness for C10 on a concrete whitespace-only line. -/
theorem C10_blank_line_noop_witness :
    send_line_wait_ok " \t ".data ["ok".data] =
      { result := .ok [], written := [], consumed := 0 } :=
  C10_blank_line_noop " \t ".data (by decide) ["ok".data]

/-! ## GcodeExecutor (src/gcode_executor.py)

Device calls made by the executor are modelled as a trace of actions. The
three regular expressions `_RE_M6054`, `_RE_M106` and `_RE_G4P` are embedded
as deterministic matchers; the greedy character classes involved are disjoint
from what may legally follow them, so no backtracking is required and the
matchers below recognise exactly the same lines with the same captures. -/

/-- Matcher for `_RE_M6054 = ^M6054\s+"?([^"\s]+)"?\s*$` (case-insensitive):
consume the case-folded op-code, at least one whitespace, an optional double
quote, capture one or more characters that are neither a quote nor
whitespace, consume an optional closing quote, and require the remainder to
be whitespace. Returns the captured group. -/
def lowerPrefixDrop : List Char → List Char → Option (List Char)
  | [], rest => some rest
  | _ :: _, [] => none
  | p :: ps, c :: cs => if lowerChar c = p then lowerPrefixDrop ps cs else none

def matchM6054 (line : List Char) : Option (List Char) :=
  match lowerPrefixDrop "m6054".data line with
  | none => none
  | some r1 =>
    match r1 with
    | [] => none
    | c :: _ =>
      if isPySpace c then
        let r2 := r1.dropWhile isPySpace
        let r3 := match r2 with
          | '"' :: t => t
          | _ => r2
        let cap := r3.takeWhile (fun c => !(c = '"') && !(isPySpace c))
        if cap = [] then none
        else
          let r4 := r3.drop cap.length
          let r5 := match r4 with
            | '"' :: t => t
            | _ => r4
          if r5.all isPySpace then some cap else none
      else none

/-- Matcher for `^OP\s+A([0-9.]+)\s*$` (case-insensitive), shared shape of
`_RE_M106` (op `M106`, argument letter `S`) and `_RE_G4P` (op `G4`, argument
letter `P`). The op-code and argument letter are given lowercased. Returns
the captured numeric token. -/
def matchNumArg (opLower : List Char) (argLower : Char) (line : List Char) :
    Option (List Char) :=
  match lowerPrefixDrop opLower line with
  | none => none
  | some r1 =>
    match r1 with
    | [] => none
    | c :: _ =>
      if isPySpace c then
        match r1.dropWhile isPySpace with
        | [] => none
        | a :: r3 =>
          if lowerChar a = argLower then
            let cap := r3.takeWhile (fun c => c.isDigit || c = '.')
            if cap = [] then none
            else if (r3.drop cap.length).all isPySpace then some cap else none
          else none
      else none

/-- Matcher for `_RE_M106 = ^M106\s+S([0-9.]+)\s*$` (case-insensitive). -/
def matchM106 (line : List Char) : Option (List Char) :=
  matchNumArg "m106".data 's' line

/-- Matcher for `_RE_G4P = ^G4\s+P([0-9.]+)\s*$` (case-insensitive). -/
def matchG4P (line : List Char) : Option (List Char) :=
  matchNumArg "g4".data 'p' line

/-- Numeric value of a digit string. -/
def digitsVal (cs : List Char) : ℕ :=
  cs.foldl (fun acc c => acc * 10 + (c.toNat - 48)) 0

/-- Python `float(...)` on a token drawn from the `[0-9.]+` character class:
defined (as an exact rational) when the token has at least one digit and at
most one dot; otherwise `none`, modelling the `ValueError` that `float`
raises on tokens such as `"."` or `"1.2.3"`. The value is
`intPart + fracPart / 10 ^ len(fracPart)`, built with `mkRat` over a common
denominator (see `parsePyFloat_val`). -/
def parsePyFloat (cs : List Char) : Option ℚ :=
  if cs.any Char.isDigit && (cs.countP (fun c => c = '.') ≤ 1 : Bool)
      && cs.all (fun c => c.isDigit || c = '.') then
    let ip := cs.takeWhile (fun c => c ≠ '.')
    let fp := (cs.dropWhile (fun c => c ≠ '.')).drop 1
    some (mkRat (digitsVal ip * 10 ^ fp.length + digitsVal fp) (10 ^ fp.length))
  else none

theorem parsePyFloat_val (cs : List Char) (q : ℚ)
    (h : parsePyFloat cs = some q) :
    q = (digitsVal (cs.takeWhile (fun c => c ≠ '.')) : ℚ)
      + (digitsVal ((cs.dropWhile (fun c => c ≠ '.')).drop 1) : ℚ)
        / (10 : ℚ) ^ ((cs.dropWhile (fun c => c ≠ '.')).drop 1).length := by
  rw [parsePyFloat] at h
  by_cases hc : (cs.any Char.isDigit
      && (cs.countP (fun c => c = '.') ≤ 1 : Bool)
      && cs.all (fun c => c.isDigit || c = '.')) = true
  · rw [if_pos hc] at h
    have hq := (Option.some_injective _ h).symm
    subst hq
    rw [Rat.mkRat_eq_div]
    have hten : ((10 : ℚ) ^ ((cs.dropWhile (fun c => c ≠ '.')).drop 1).length) ≠ 0 := by
      positivity
    push_cast
    field_simp
  · rw [if_neg hc] at h
    exact absurd h (by simp)

/-- The run statistics aggregate, mirroring the `RunStats` dataclass. -/
structure RunStats where
  gcode_lines_total : ℕ
  gcode_lines_sent_grbl : ℕ
  dwell_count : ℕ
  exposure_on_count : ℕ
  exposure_off_count : ℕ
  image_select_count : ℕ
deriving DecidableEq, Repr

/-- Fresh statistics, mirroring `RunStats()` with all-zero defaults. -/
def RunStats.fresh : RunStats := ⟨0, 0, 0, 0, 0, 0⟩

/-- Configuration of the executor: the constructor arguments that the
per-line handlers consult. -/
structure ExecConfig where
  image_dir : List Char
  dry_run : Bool
  post_exposure_black_delay_s : ℚ
  pre_exposure_black_delay_s : ℚ
deriving DecidableEq, Repr

/-- Mutable session state of `GcodeExecutor`: the statistics, the currently
selected image path, and the `_exposure_active` flag. -/
structure ExecState where
  stats : RunStats
  current_image : Option (List Char)
  exposure_active : Bool
deriving DecidableEq, Repr

/-- Device actions the executor can perform. -/
inductive DevAct
  | waitUntilIdle
  | projectorOff
  | projectorOn
  | displayBlack
  | displayShow (path : List Char)
  | sleepWithPump (secs : ℚ)
  | grblSend (line : List Char)
deriving DecidableEq, Repr

/-- Errors raised by the executor: `NoImageSelected` (the `RuntimeError` for
an `M106 S255` with no prior `M6054`) and the `ValueError` that `float`
raises on a malformed numeric token. -/
inductive ExecErr
  | noImageSelected
  | valueError
deriving DecidableEq, Repr

/-- `GcodeExecutor._strip_comment`: drop everything from the first `;` on,
then strip. -/
def strip_comment (line : List Char) : List Char :=
  pyStrip (line.takeWhile (fun c => c ≠ ';'))

/-- `os.path.join(image_dir, name)` (POSIX, the fragment exercised here). -/
def joinPath (dir name : List Char) : List Char :=
  if name.head? = some '/' then name
  else if dir = [] then name
  else if dir.getLast? = some '/' then dir ++ name
  else dir ++ '/' :: name

/-- The extension-defaulting step of `_handle_m6054`: append `.png` unless
the lowercased name already ends in a recognised image extension. -/
def imageFileName (name : List Char) : List Char :=
  let low := pyLower name
  if ".png".data.isSuffixOf low || ".bmp".data.isSuffixOf low
      || ".jpg".data.isSuffixOf low || ".jpeg".data.isSuffixOf low then
    name
  else
    name ++ ".png".data

/-- `GcodeExecutor._handle_m6054` after a successful regex match: set the
current image and bump the image-select counter. No device action. -/
def handle_m6054 (cfg : ExecConfig) (st : ExecState) (name : List Char) :
    ExecState :=
  { st with
    current_image := some (joinPath cfg.image_dir (imageFileName name)),
    stats := { st.stats with
      image_select_count := st.stats.image_select_count + 1 } }

/-- `GcodeExecutor._handle_m106` after a successful regex match and float
parse. For `s_val ≥ 1`: bump the exposure-on counter, then fail with
`NoImageSelected` if no image is selected, otherwise (live mode) wait for
idle, force dark (illuminator off, display black), hold the pre-exposure
dark delay if positive, show the image and enable the illuminator; in
dry-run mode no device action. Note that the live path never sets
`exposure_active` (the assignment exists only in a dead string literal in
the source). For `s_val < 1`: bump the exposure-off counter, capture the
current `exposure_active` into `was`, clear the flag, then (live mode)
illuminator off, display black, and the post-exposure dark hold only if
`was` and the configured delay is positive. -/
def handle_m106 (cfg : ExecConfig) (st : ExecState) (s_val : ℚ) :
    ExecState × List DevAct × Option ExecErr :=
  if 1 ≤ s_val then
    let st1 := { st with stats := { st.stats with
      exposure_on_count := st.stats.exposure_on_count + 1 } }
    match st.current_image with
    | none => (st1, [], some .noImageSelected)
    | some img =>
      let acts := if cfg.dry_run then [] else
        [.waitUntilIdle, .projectorOff, .displayBlack]
          ++ (if 0 < cfg.pre_exposure_black_delay_s then
                [.sleepWithPump cfg.pre_exposure_black_delay_s] else [])
          ++ [.displayShow img, .projectorOn]
      (st1, acts, none)
  else
    let was := st.exposure_active
    let st1 := { st with
      exposure_active := false,
      stats := { st.stats with
        exposure_off_count := st.stats.exposure_off_count + 1 } }
    let acts := if cfg.dry_run then [] else
      [.projectorOff, .displayBlack]
        ++ (if was = true ∧ 0 < cfg.post_exposure_black_delay_s then
              [.sleepWithPump cfg.post_exposure_black_delay_s] else [])
    (st1, acts, none)

/-- `GcodeExecutor._handle_g4` after a successful regex match and float
parse: bump the dwell counter; in live mode sleep `ms / 1000` seconds with
the event pump. -/
def handle_g4 (cfg : ExecConfig) (st : ExecState) (ms : ℚ) :
    ExecState × List DevAct :=
  ({ st with stats := { st.stats with
      dwell_count := st.stats.dwell_count + 1 } },
   if cfg.dry_run then [] else [.sleepWithPump (ms / 1000)])

/-- `GcodeExecutor._send_to_grbl`: in dry-run mode only log (no counter
update); in live mode forward the line and bump the forwarded counter. -/
def send_to_grbl (cfg : ExecConfig) (st : ExecState) (line : List Char) :
    ExecState × List DevAct :=
  if cfg.dry_run then (st, [])
  else
    ({ st with stats := { st.stats with
        gcode_lines_sent_grbl := st.stats.gcode_lines_sent_grbl + 1 } },
     [.grblSend line])

/-- Classification of one non-blank de-commented line, following the
dispatch order of `run_file`: `_handle_m6054` first, then `_handle_m106`,
then `_handle_g4`, and everything else is forwarded to GRBL. -/
inductive LineOp
  | selectImage (name : List Char)
  | setExposure (sTok : List Char)
  | dwell (pTok : List Char)
  | motion (text : List Char)
deriving DecidableEq, Repr

/-- First regex match wins, in the fixed precedence order of `run_file`. -/
def classifyLine (line : List Char) : LineOp :=
  match matchM6054 line with
  | some name => .selectImage name
  | none =>
    match matchM106 line with
    | some s => .setExposure s
    | none =>
      match matchG4P line with
      | some p => .dwell p
      | none => .motion line

/-- Dispatch of one non-blank de-commented line. -/
def exec_line (cfg : ExecConfig) (st : ExecState) (line : List Char) :
    ExecState × List DevAct × Option ExecErr :=
  match classifyLine line with
  | .selectImage name => (handle_m6054 cfg st name, [], none)
  | .setExposure sTok =>
    match parsePyFloat sTok with
    | none => (st, [], some .valueError)
    | some s => handle_m106 cfg st s
  | .dwell pTok =>
    match parsePyFloat pTok with
    | none => (st, [], some .valueError)
    | some ms =>
      let r := handle_g4 cfg st ms
      (r.1, r.2, none)
  | .motion text =>
    let r := send_to_grbl cfg st text
    (r.1, r.2, none)

/-- The loop body of `run_file`: count every raw line, strip its comment,
skip it if blank, otherwise dispatch it, aborting the run at the first
error. -/
def run_lines (cfg : ExecConfig) :
    ExecState → List (List Char) → ExecState × List DevAct × Option ExecErr
  | st, [] => (st, [], none)
  | st, raw :: rest =>
    let st0 := { st with stats := { st.stats with
      gcode_lines_total := st.stats.gcode_lines_total + 1 } }
    let line := strip_comment raw
    if line = [] then run_lines cfg st0 rest
    else
      match exec_line cfg st0 line with
      | (st1, acts, some e) => (st1, acts, some e)
      | (st1, acts, none) =>
        let r := run_lines cfg st1 rest
        (r.1, acts ++ r.2.1, r.2.2)

/-- `GcodeExecutor.run_file`, given the file's raw lines: reset `self.stats`
to a fresh aggregate (note: only the statistics are reset — `current_image`
and `_exposure_active` are untouched) and process the lines. -/
def run_file (cfg : ExecConfig) (st : ExecState) (lines : List (List Char)) :
    ExecState × List DevAct × Option ExecErr :=
  run_lines cfg { st with stats := RunStats.fresh } lines

/-- CLAIM C1: a begin-exposure line (`SetExposure` with level ≥ 1) executed
in live mode with an image selected performs exactly the sequence
(i) wait-until-idle, (ii) illuminator off then display black, (iii) the
pre-exposure dark hold when the configured delay is positive,
(iv) show the current image, (v) illuminator on — in that order, so
illumination is never enabled before an Idle status has been observed; the
only state change is the exposure-on counter increment, and no error is
raised. -/
theorem C1_begin_exposure_sequence (cfg : ExecConfig) (st : ExecState)
    (line sTok : List Char) (s : ℚ) (img : List Char)
    (hcl : classifyLine line = .setExposure sTok)
    (hs : parsePyFloat sTok = some s) (h1 : 1 ≤ s)
    (himg : st.current_image = some img)
    (hlive : cfg.dry_run = false) :
    exec_line cfg st line =
      ({ st with stats := { st.stats with
          exposure_on_count := st.stats.exposure_on_count + 1 } },
       [.waitUntilIdle, .projectorOff, .displayBlack]
         ++ (if 0 < cfg.pre_exposure_black_delay_s then
               [.sleepWithPump cfg.pre_exposure_black_delay_s] else [])
         ++ [.displayShow img, .projectorOn],
       none) := by
  simp only [exec_line, hcl, hs]
  rw [handle_m106, if_pos h1, himg]
  simp [hlive]

/-- Witness for C1: `M106 S255` with image `/d/a.png` selected and a one
second pre-exposure dark delay. -/
theorem C1_begin_exposure_sequence_witness :
    exec_line ⟨"/d".data, false, 0, 1⟩
        ⟨RunStats.fresh, some "/d/a.png".data, false⟩ "M106 S255".data =
      (⟨⟨0, 0, 0, 1, 0, 0⟩, some "/d/a.png".data, false⟩,
       [.waitUntilIdle, .projectorOff, .displayBlack, .sleepWithPump 1,
        .displayShow "/d/a.png".data, .projectorOn],
       none) := by
  rw [C1_begin_exposure_sequence ⟨"/d".data, false, 0, 1⟩
    ⟨RunStats.fresh, some "/d/a.png".data, false⟩ "M106 S255".data
    "255".data 255 "/d/a.png".data (by decide) (by decide) (by norm_num)
    rfl rfl]
  decide

/-- CLAIM C6: a begin-exposure line processed while no image is selected
raises the no-image-selected error with an empty device-action trace (no
MotionLink, Illuminator or DisplaySurface call), and the exposure-on counter
is nevertheless incremented; nothing else in the session state changes.
This holds in both modes (the image check precedes the dry-run branch). -/
theorem C6_no_image_selected (cfg : ExecConfig) (st : ExecState)
    (line sTok : List Char) (s : ℚ)
    (hcl : classifyLine line = .setExposure sTok)
    (hs : parsePyFloat sTok = some s) (h1 : 1 ≤ s)
    (hnone : st.current_image = none) :
    exec_line cfg st line =
      ({ st with stats := { st.stats with
          exposure_on_count := st.stats.exposure_on_count + 1 } },
       [], some .noImageSelected) := by
  simp only [exec_line, hcl, hs]
  rw [handle_m106, if_pos h1, hnone]

/-- Witness for C6: `M106 S255` with no prior `M6054`. -/
theorem C6_no_image_selected_witness :
    exec_line ⟨"/d".data, false, 0, 0⟩ ⟨RunStats.fresh, none, false⟩
        "M106 S255".data =
      (⟨⟨0, 0, 0, 1, 0, 0⟩, none, false⟩, [], some .noImageSelected) := by
  rw [C6_no_image_selected ⟨"/d".data, false, 0, 0⟩
    ⟨RunStats.fresh, none, false⟩ "M106 S255".data "255".data 255
    (by decide) (by decide) (by norm_num) rfl]
  decide

/-- CLAIM C2 (code bug): after the five live begin-exposure steps all
complete, `exposure_active` is still false — the source assigns
`self._exposure_active = True` only inside a dead string literal — so a
`SetExposure(0)` arriving immediately after a successful `SetExposure(255)`
does not apply the configured positive post-exposure dark delay: with a two
second configured delay, the run's trace ends with the off/black pair and
contains no dark-hold sleep, contradicting the specified behaviour. -/
theorem C2_exposure_active_bug :
    (run_file ⟨"/d".data, false, 2, 0⟩ ⟨RunStats.fresh, none, false⟩
        ["M6054 a".data, "M106 S255".data]).1.exposure_active = false
    ∧ run_file ⟨"/d".data, false, 2, 0⟩ ⟨RunStats.fresh, none, false⟩
        ["M6054 a".data, "M106 S255".data, "M106 S0".data] =
      (⟨⟨3, 0, 0, 1, 1, 1⟩, some "/d/a.png".data, false⟩,
       [.waitUntilIdle, .projectorOff, .displayBlack,
        .displayShow "/d/a.png".data, .projectorOn,
        .projectorOff, .displayBlack],
       none) := by decide

/-- Counterexample to CLAIM C9: the session state is not fresh at the start
of every run on the same executor — `run_file` resets only the statistics,
so the image selected in a first run is still selected when a second run
starts: a second run consisting only of `M106 S1` completes without error,
while the same program on a fresh executor fails with the
no-image-selected error. -/
theorem C9_counterexample :
    (run_file ⟨"/d".data, false, 0, 0⟩
        (run_file ⟨"/d".data, false, 0, 0⟩ ⟨RunStats.fresh, none, false⟩
          ["M6054 a".data]).1 ["M106 S1".data]).2.2 = none
    ∧ (run_file ⟨"/d".data, false, 0, 0⟩ ⟨RunStats.fresh, none, false⟩
        ["M106 S1".data]).2.2 = some .noImageSelected := by decide

/-- CLAIM C9 (amended): at the start of every run the run-statistics
counters are reset to a fresh all-zero aggregate — the run's outcome never
depends on the statistics carried in from before — but `current_image` and
`exposure_active` are not reset and persist from the previous run on the
same executor. -/
theorem C9_stats_reset (cfg : ExecConfig) (stats1 stats2 : RunStats)
    (img : Option (List Char)) (ea : Bool) (lines : List (List Char)) :
    run_file cfg ⟨stats1, img, ea⟩ lines = run_file cfg ⟨stats2, img, ea⟩ lines := rfl

/-! ## Dry-run versus live statistics (claims C3 and C7) -/

/-- Pin the forwarded-line counter of a session state to `c`, leaving every
other component unchanged. -/
def withSent (st : ExecState) (c : ℕ) : ExecState :=
  { st with stats := { st.stats with gcode_lines_sent_grbl := c } }

theorem exec_line_dry_of_live (dir : List Char) (post pre : ℚ)
    (st : ExecState) (c : ℕ) (line : List Char) :
    exec_line ⟨dir, true, post, pre⟩ (withSent st c) line
      = (withSent (exec_line ⟨dir, false, post, pre⟩ st line).1 c, [],
         (exec_line ⟨dir, false, post, pre⟩ st line).2.2) := by
  obtain ⟨⟨t1, t2, t3, t4, t5, t6⟩, img, ea⟩ := st
  cases hcl : classifyLine line with
  | selectImage name =>
      simp [exec_line, hcl, handle_m6054, withSent]
  | setExposure sTok =>
      cases hp : parsePyFloat sTok with
      | none => simp [exec_line, hcl, hp, withSent]
      | some s =>
          simp only [exec_line, hcl, hp]
          by_cases h1 : 1 ≤ s
          · cases img with
            | none => simp [handle_m106, h1, withSent]
            | some i => simp [handle_m106, h1, withSent]
          · simp [handle_m106, h1, withSent]
  | dwell pTok =>
      cases hp : parsePyFloat pTok with
      | none => simp [exec_line, hcl, hp, withSent]
      | some ms => simp [exec_line, hcl, hp, handle_g4, withSent]
  | motion text =>
      simp [exec_line, hcl, send_to_grbl, withSent]

theorem run_lines_dry_of_live (dir : List Char) (post pre : ℚ) :
    ∀ (lines : List (List Char)) (st : ExecState) (c : ℕ),
      run_lines ⟨dir, true, post, pre⟩ (withSent st c) lines
        = (withSent (run_lines ⟨dir, false, post, pre⟩ st lines).1 c, [],
           (run_lines ⟨dir, false, post, pre⟩ st lines).2.2) := by
  intro lines
  induction lines with
  | nil => intro st c; simp [run_lines]
  | cons raw rest ih =>
    intro st c
    obtain ⟨⟨t1, t2, t3, t4, t5, t6⟩, img, ea⟩ := st
    simp only [run_lines, withSent]
    by_cases hb : strip_comment raw = []
    · rw [if_pos hb, if_pos hb]
      have h := ih ⟨⟨t1 + 1, t2, t3, t4, t5, t6⟩, img, ea⟩ c
      simpa [withSent] using h
    · rw [if_neg hb, if_neg hb]
      have hD := exec_line_dry_of_live dir post pre
        ⟨⟨t1 + 1, t2, t3, t4, t5, t6⟩, img, ea⟩ c (strip_comment raw)
      rcases hE : exec_line ⟨dir, false, post, pre⟩
          ⟨⟨t1 + 1, t2, t3, t4, t5, t6⟩, img, ea⟩ (strip_comment raw) with
        ⟨st1, acts, err⟩
      rw [hE] at hD
      simp only [withSent] at hD
      rw [hD]
      cases err with
      | some e => simp
      | none =>
        have h := ih st1 c
        simp only [withSent] at h
        simp [h]

/-- Counterexample to CLAIM C3: for the one-line program `G1 X1` (a motion
line), both modes complete without error, yet the run statistics differ —
the live run counts one forwarded line while the dry run counts zero,
because `_send_to_grbl` returns before the counter update in dry-run
mode. -/
theorem C3_counterexample :
    (run_file ⟨"/d".data, false, 0, 0⟩ ⟨RunStats.fresh, none, false⟩
        ["G1 X1".data]).2.2 = none
    ∧ (run_file ⟨"/d".data, true, 0, 0⟩ ⟨RunStats.fresh, none, false⟩
        ["G1 X1".data]).2.2 = none
    ∧ ¬ ((run_file ⟨"/d".data, false, 0, 0⟩ ⟨RunStats.fresh, none, false⟩
          ["G1 X1".data]).1.stats =
        (run_file ⟨"/d".data, true, 0, 0⟩ ⟨RunStats.fresh, none, false⟩
          ["G1 X1".data]).1.stats) := by decide

/-- CLAIM C3 (amended): for every program and identically configured
executors, dry-run and live execution produce RunStatistics identical in
every counter field except the forwarded-to-controller line counter, which
stays `0` in dry-run mode (it is not advanced there); the two modes also
agree on whether (and with which error) the run aborts. -/
theorem C3_dry_run_statistics (dir : List Char) (post pre : ℚ)
    (st : ExecState) (lines : List (List Char)) :
    (run_file ⟨dir, true, post, pre⟩ st lines).1.stats
      = { (run_file ⟨dir, false, post, pre⟩ st lines).1.stats with
            gcode_lines_sent_grbl := 0 }
    ∧ (run_file ⟨dir, true, post, pre⟩ st lines).2.2
      = (run_file ⟨dir, false, post, pre⟩ st lines).2.2 := by
  obtain ⟨stats, img, ea⟩ := st
  have h := run_lines_dry_of_live dir post pre lines
    ⟨RunStats.fresh, img, ea⟩ 0
  have hfresh : withSent ⟨RunStats.fresh, img, ea⟩ 0
      = ⟨RunStats.fresh, img, ea⟩ := rfl
  rw [hfresh] at h
  rw [run_file, run_file]
  constructor
  · show (run_lines _ ⟨RunStats.fresh, img, ea⟩ lines).1.stats = _
    rw [h]
    rfl
  · show (run_lines _ ⟨RunStats.fresh, img, ea⟩ lines).2.2 = _
    rw [h]

/-! ## Line accounting (claim C7) -/

/-- Sum of the forwarded-line counter and the four local-operation
counters. -/
def localOpSum (s : RunStats) : ℕ :=
  s.gcode_lines_sent_grbl + s.image_select_count + s.exposure_on_count
    + s.exposure_off_count + s.dwell_count

/-- Number of program lines that are non-blank after comment stripping. -/
def countNonBlank (lines : List (List Char)) : ℕ :=
  lines.countP (fun raw => !(strip_comment raw).isEmpty)

theorem exec_line_sum (dir : List Char) (post pre : ℚ) (st : ExecState)
    (line : List Char)
    (hok : (exec_line ⟨dir, false, post, pre⟩ st line).2.2 = none) :
    localOpSum (exec_line ⟨dir, false, post, pre⟩ st line).1.stats
      = localOpSum st.stats + 1 := by
  obtain ⟨⟨t1, t2, t3, t4, t5, t6⟩, img, ea⟩ := st
  cases hcl : classifyLine line with
  | selectImage name =>
      simp [exec_line, hcl, handle_m6054, localOpSum]
      omega
  | setExposure sTok =>
      cases hp : parsePyFloat sTok with
      | none => rw [exec_line, hcl] at hok; simp [hp] at hok
      | some s =>
          simp only [exec_line, hcl, hp] at hok ⊢
          by_cases h1 : 1 ≤ s
          · cases img with
            | none => simp [handle_m106, h1] at hok
            | some i =>
                simp [handle_m106, h1, localOpSum]
                omega
          · simp [handle_m106, h1, localOpSum]
            omega
  | dwell pTok =>
      cases hp : parsePyFloat pTok with
      | none => rw [exec_line, hcl] at hok; simp [hp] at hok
      | some ms =>
          simp [exec_line, hcl, hp, handle_g4, localOpSum]
          omega
  | motion text =>
      simp [exec_line, hcl, send_to_grbl, localOpSum]
      omega

theorem run_lines_sum (dir : List Char) (post pre : ℚ) :
    ∀ (lines : List (List Char)) (st : ExecState),
      (run_lines ⟨dir, false, post, pre⟩ st lines).2.2 = none →
      localOpSum (run_lines ⟨dir, false, post, pre⟩ st lines).1.stats
        = localOpSum st.stats + countNonBlank lines := by
  intro lines
  induction lines with
  | nil => intro st _; simp [run_lines, countNonBlank]
  | cons raw rest ih =>
    intro st hok
    obtain ⟨⟨t1, t2, t3, t4, t5, t6⟩, img, ea⟩ := st
    rw [run_lines] at hok ⊢
    by_cases hb : strip_comment raw = []
    · rw [if_pos hb] at hok ⊢
      rw [ih _ hok]
      have hcnt : countNonBlank (raw :: rest) = countNonBlank rest := by
        simp [countNonBlank, List.countP_cons, hb]
      rw [hcnt]
      rfl
    · rw [if_neg hb] at hok ⊢
      rcases hE : exec_line ⟨dir, false, post, pre⟩
          ⟨⟨t1 + 1, t2, t3, t4, t5, t6⟩, img, ea⟩ (strip_comment raw) with
        ⟨st1, acts, err⟩
      rw [hE] at hok
      cases err with
      | some e => simp at hok
      | none =>
        have hok2 : (run_lines ⟨dir, false, post, pre⟩ st1 rest).2.2 = none := by
          simpa using hok
        have hsum := exec_line_sum dir post pre
          ⟨⟨t1 + 1, t2, t3, t4, t5, t6⟩, img, ea⟩ (strip_comment raw)
          (by rw [hE])
        rw [hE] at hsum
        have hrec := ih st1 hok2
        have hcnt : countNonBlank (raw :: rest) = countNonBlank rest + 1 := by
          simp [countNonBlank, List.countP_cons, hb]
        rw [hcnt]
        show localOpSum (run_lines ⟨dir, false, post, pre⟩ st1 rest).1.stats
          = localOpSum ⟨t1, t2, t3, t4, t5, t6⟩ + (countNonBlank rest + 1)
        rw [hrec, hsum]
        simp [localOpSum]
        omega

/-- Counterexample to CLAIM C7: the claim quantifies over both modes, but in
dry-run mode the forwarded-line counter is not advanced: the one-line
program `G1 X1` completes without error, has one non-blank de-commented
line, yet the sum of the forwarded-line counter and the four local-operation
counters is zero. -/
theorem C7_counterexample :
    (run_file ⟨"/d".data, true, 0, 0⟩ ⟨RunStats.fresh, none, false⟩
        ["G1 X1".data]).2.2 = none
    ∧ ¬ (localOpSum (run_file ⟨"/d".data, true, 0, 0⟩
          ⟨RunStats.fresh, none, false⟩ ["G1 X1".data]).1.stats
        = countNonBlank ["G1 X1".data]) := by decide

/-- CLAIM C7 (amended): for every program processed to completion without
error in live mode, the sum of the forwarded-line counter plus the
image-select, exposure-on, exposure-off and dwell counters equals the number
of lines that are non-blank after comment stripping (each such line being
classified into exactly one operation by `classifyLine`, which tests the
patterns in the fixed precedence order select-image, set-exposure, dwell,
motion fallback); in dry-run mode the forwarded-line counter is not
advanced, so the sum falls short by the number of forwarded lines. -/
theorem C7_line_accounting (dir : List Char) (post pre : ℚ)
    (st : ExecState) (lines : List (List Char))
    (hok : (run_file ⟨dir, false, post, pre⟩ st lines).2.2 = none) :
    localOpSum (run_file ⟨dir, false, post, pre⟩ st lines).1.stats
      = countNonBlank lines := by
  rw [run_file] at hok ⊢
  rw [run_lines_sum dir post pre lines _ hok]
  simp [localOpSum, RunStats.fresh]

/-- Witness for C7 on a five-operation live program (one motion line, one
image select, one exposure on, one exposure off, one dwell, plus a pure
comment line). -/
theorem C7_line_accounting_witness :
    localOpSum (run_file ⟨"/d".data, false, 0, 0⟩
        ⟨RunStats.fresh, none, false⟩
        ["G21".data, "M6054 a".data, "M106 S255".data, "M106 S0".data,
         "G4 P100".data, "; note".data]).1.stats
      = countNonBlank
          ["G21".data, "M6054 a".data, "M106 S255".data, "M106 S0".data,
           "G4 P100".data, "; note".data] :=
  C7_line_accounting "/d".data 0 0 ⟨RunStats.fresh, none, false⟩
    ["G21".data, "M6054 a".data, "M106 S255".data, "M106 S0".data,
     "G4 P100".data, "; note".data] (by decide)
